import Mathlib

/-!
# Trajectory-Tracer: the client store, the filter panel and the message renderer

A shallow embedding of `frontend/src/store.js`, `components/FilterPanel.jsx`,
`components/TrajectoryList.jsx`, `components/TrajectoryViewer.jsx` and
`components/MessageBubble.jsx`.

Conventions of the embedding.

* JavaScript values are the primitive values the program moves around
  (`JSValue`).  Numbers are the integer-valued doubles, `NaN` and the two
  infinities; `-0` is identified with `0` (the program never divides and the
  two agree on truthiness and on their string form).
* `pagination.skip` and `pagination.limit` are only ever produced by integer
  addition, subtraction and `Math.max` from `0` and `50`; they are modelled as
  `Int` (exact for doubles of magnitude up to `2 ^ 53`).
* Strings are sequences of Unicode characters; the markers the program looks
  for are ASCII, so searching and splitting agree with the UTF-16 view.
* An `async` action is split at its `await`: the synchronous part that runs
  when the action is called, and the continuation that runs when the request
  has settled.
-/

namespace TrajectoryTracer

/-! ## JavaScript values -/

/-- Numbers: an integer-valued double, `NaN`, or `±Infinity`. -/
inductive JSNumber where
  | nan
  | int (z : Int)
  | inf (negative : Bool)
  deriving DecidableEq, Repr

/-- Primitive JavaScript values. -/
inductive JSValue where
  | undefined
  | null
  | bool (b : Bool)
  | number (n : JSNumber)
  | string (s : String)
  deriving DecidableEq, Repr

/-- The abstract operation `ToBoolean`: what `v && e`, `v || e`, `v ? a : b` and
`!v` test.  Falsy are `undefined`, `null`, `false`, `0`, `NaN` and `""`. -/
def JSValue.truthy : JSValue → Bool
  | .undefined => false
  | .null => false
  | .bool b => b
  | .number .nan => false
  | .number (.int z) => z != 0
  | .number (.inf _) => true
  | .string s => s != ""

/-- The expression `a || b`. -/
def JSValue.or (a b : JSValue) : JSValue :=
  if a.truthy then a else b

/-! ## The store (`store.js`) -/

/-- The `filters` slice, `store.js:16-21`. -/
structure Filters where
  status : JSValue
  taskType : JSValue
  minSteps : JSValue
  maxSteps : JSValue
  deriving DecidableEq, Repr

/-- The `pagination` slice, `store.js:24-27`. -/
structure Pagination where
  skip : Int
  limit : Int
  deriving DecidableEq, Repr

/-- The state held by `useStore`, `store.js:5-27`.  The three server payloads
are kept abstract: the store never inspects them. `error` is `null` (`none`) or
the `message` of the caught error. -/
structure Store (T D S : Type) where
  trajectories : List T
  currentTrajectory : Option D
  statistics : Option S
  loading : Bool
  error : Option String
  filters : Filters
  pagination : Pagination

/-- The four property names of the `filters` object. -/
inductive FilterKey where
  | status
  | taskType
  | minSteps
  | maxSteps
  deriving DecidableEq, Repr

/-- Property read `filters[key]`. -/
def Filters.get (f : Filters) : FilterKey → JSValue
  | .status => f.status
  | .taskType => f.taskType
  | .minSteps => f.minSteps
  | .maxSteps => f.maxSteps

/-- The object literal `{ ...filters, [key]: value }`. -/
def Filters.set (f : Filters) (key : FilterKey) (value : JSValue) : Filters :=
  match key with
  | .status => { f with status := value }
  | .taskType => { f with taskType := value }
  | .minSteps => { f with minSteps := value }
  | .maxSteps => { f with maxSteps := value }

/-- The filters literal of `store.js:16-21` and `store.js:91-96`. -/
def defaultFilters : Filters :=
  { status := .null, taskType := .null, minSteps := .null, maxSteps := .null }

/-- The initial state, `store.js:5-27`. -/
def initialStore {T D S : Type} : Store T D S :=
  { trajectories := []
    currentTrajectory := none
    statistics := none
    loading := false
    error := none
    filters := defaultFilters
    pagination := { skip := 0, limit := 50 } }

/-- Action `setFilter`, `store.js:81-86`. -/
def setFilter {T D S : Type} (key : FilterKey) (value : JSValue) (state : Store T D S) :
    Store T D S :=
  { state with
    filters := state.filters.set key value
    pagination := { state.pagination with skip := 0 } }

/-- Action `clearFilters`, `store.js:89-99`. -/
def clearFilters {T D S : Type} (state : Store T D S) : Store T D S :=
  { state with
    filters := { status := .null, taskType := .null, minSteps := .null, maxSteps := .null }
    pagination := { skip := 0, limit := 50 } }

/-- Action `setCurrentTrajectory`, `store.js:102-104`; the argument may be `null`. -/
def setCurrentTrajectory {T D S : Type} (trajectory : Option D) (state : Store T D S) :
    Store T D S :=
  { state with currentTrajectory := trajectory }

/-- Action `nextPage`, `store.js:107-114`. -/
def nextPage {T D S : Type} (state : Store T D S) : Store T D S :=
  { state with
    pagination :=
      { state.pagination with skip := state.pagination.skip + state.pagination.limit } }

/-- Action `prevPage`, `store.js:116-123`. -/
def prevPage {T D S : Type} (state : Store T D S) : Store T D S :=
  { state with
    pagination :=
      { state.pagination with
        skip := max 0 (state.pagination.skip - state.pagination.limit) } }

/-! ### `fetchTrajectories` -/

/-- The spread `...(v && { name: v })`: one property when `v` is truthy, none
otherwise (spreading a falsy primitive adds no property). -/
def spreadIfTruthy (name : String) (v : JSValue) : List (String × JSValue) :=
  if v.truthy then [(name, v)] else []

/-- The object literal handed to `new URLSearchParams`, `store.js:34-41`, as
its own properties in insertion order. -/
def queryRecord (filters : Filters) (pagination : Pagination) : List (String × JSValue) :=
  [("skip", .number (.int pagination.skip)), ("limit", .number (.int pagination.limit))]
    ++ spreadIfTruthy "status" filters.status
    ++ spreadIfTruthy "task_type" filters.taskType
    ++ spreadIfTruthy "min_steps" filters.minSteps
    ++ spreadIfTruthy "max_steps" filters.maxSteps

/-- The constructor `new URLSearchParams(record)`: one name-value pair per
property, in order, each value converted by `ToString` (a parameter: the
conversion belongs to the language, not to the repository). -/
def URLSearchParams (toStr : JSValue → String) (record : List (String × JSValue)) :
    List (String × String) :=
  record.map fun p => (p.1, toStr p.2)

/-- The query of the list request, `store.js:33-43`, read from the state. -/
def fetchTrajectoriesParams {T D S : Type} (toStr : JSValue → String) (state : Store T D S) :
    List (String × String) :=
  URLSearchParams toStr (queryRecord state.filters state.pagination)

/-- How the awaited part of a fetch action ends: `fetch` rejects with an error
carrying `message`; the response arrives with `ok` false; the response is ok but
`response.json()` rejects with an error carrying `message`; or the body parses
to `data`. -/
inductive FetchOutcome (α : Type) where
  | transportError (message : String)
  | notOk
  | jsonError (message : String)
  | ok (data : α)

/-- The `try` block after the request has settled, `store.js:43-46`: the parsed
body, or the `message` of the error thrown (by `fetch`, by the `throw` of line
44, or by `response.json()`). -/
def listResponse {α : Type} : FetchOutcome α → Except String α
  | .transportError message => .error message
  | .notOk => .error "Failed to fetch trajectories"
  | .jsonError message => .error message
  | .ok data => .ok data

/-- The synchronous part of `fetchTrajectories`, `store.js:31`:
`set({ loading: true, error: null })`. -/
def fetchTrajectoriesStart {T D S : Type} (state : Store T D S) : Store T D S :=
  { state with loading := true, error := none }

/-- The continuation of `fetchTrajectories` once the request has settled,
`store.js:47` and `store.js:49`, applied to the state current at that moment. -/
def fetchTrajectoriesSettle {T D S : Type} (outcome : FetchOutcome (List T))
    (state : Store T D S) : Store T D S :=
  match listResponse outcome with
  | .ok data => { state with trajectories := data, loading := false }
  | .error message => { state with error := some message, loading := false }

/-- The query of the request that a call of `fetchTrajectories` sends,
`store.js:31-43`: it is built from what `get()` returns after the `set` of
line 31. -/
def fetchTrajectoriesRequest {T D S : Type} (toStr : JSValue → String) (state : Store T D S) :
    List (String × String) :=
  fetchTrajectoriesParams toStr (fetchTrajectoriesStart state)

/-- One call of `fetchTrajectories` with no other action in between: the state
after the call has settled. -/
def fetchTrajectories {T D S : Type} (outcome : FetchOutcome (List T))
    (state : Store T D S) : Store T D S :=
  fetchTrajectoriesSettle outcome (fetchTrajectoriesStart state)

/-! ### `fetchTrajectoryDetail` and `fetchStatistics` -/

/-- The `try` block of `fetchTrajectoryDetail` after the request has settled,
`store.js:57-60`: the parsed body (possibly `null`), or the `message` of the
error thrown. -/
def detailResponse {α : Type} : FetchOutcome α → Except String α
  | .transportError message => .error message
  | .notOk => .error "Failed to fetch trajectory detail"
  | .jsonError message => .error message
  | .ok data => .ok data

/-- The synchronous part of `fetchTrajectoryDetail(id)`, `store.js:55`:
`set({ loading: true, error: null })`; the `id` only enters the address of the
request. -/
def fetchTrajectoryDetailStart {T D S : Type} (state : Store T D S) : Store T D S :=
  { state with loading := true, error := none }

/-- The continuation of `fetchTrajectoryDetail` once the request has settled,
`store.js:61` and `store.js:63`. -/
def fetchTrajectoryDetailSettle {T D S : Type} (outcome : FetchOutcome (Option D))
    (state : Store T D S) : Store T D S :=
  match detailResponse outcome with
  | .ok data => { state with currentTrajectory := data, loading := false }
  | .error message => { state with error := some message, loading := false }

/-- The continuation of `fetchStatistics` once the request has settled,
`store.js:68-78`: success stores the body, a failure is only logged.  The
action has no synchronous `set`. -/
def fetchStatisticsSettle {T D S : Type} (outcome : FetchOutcome (Option S))
    (state : Store T D S) : Store T D S :=
  match outcome with
  | .ok data => { state with statistics := data }
  | _ => state

/-! ### Runs of the store -/

/-- The state changes the store can make: one per `set` call of `store.js`.  A
fetch action contributes its synchronous `set` and, separately, the `set` of
its completion, so that other actions may come in between. -/
inductive Action (T D S : Type) where
  | fetchTrajectoriesStart
  | fetchTrajectoriesSettle (outcome : FetchOutcome (List T))
  | fetchTrajectoryDetailStart
  | fetchTrajectoryDetailSettle (outcome : FetchOutcome (Option D))
  | fetchStatisticsSettle (outcome : FetchOutcome (Option S))
  | setFilter (key : FilterKey) (value : JSValue)
  | clearFilters
  | setCurrentTrajectory (trajectory : Option D)
  | nextPage
  | prevPage

/-- Effect of one state change on the store. -/
def Action.apply {T D S : Type} : Action T D S → Store T D S → Store T D S
  | .fetchTrajectoriesStart => TrajectoryTracer.fetchTrajectoriesStart
  | .fetchTrajectoriesSettle outcome => TrajectoryTracer.fetchTrajectoriesSettle outcome
  | .fetchTrajectoryDetailStart => TrajectoryTracer.fetchTrajectoryDetailStart
  | .fetchTrajectoryDetailSettle outcome => TrajectoryTracer.fetchTrajectoryDetailSettle outcome
  | .fetchStatisticsSettle outcome => TrajectoryTracer.fetchStatisticsSettle outcome
  | .setFilter key value => TrajectoryTracer.setFilter key value
  | .clearFilters => TrajectoryTracer.clearFilters
  | .setCurrentTrajectory trajectory => TrajectoryTracer.setCurrentTrajectory trajectory
  | .nextPage => TrajectoryTracer.nextPage
  | .prevPage => TrajectoryTracer.prevPage

/-- The state after a finite sequence of state changes, applied from left to right. -/
def run {T D S : Type} (actions : List (Action T D S)) (state : Store T D S) : Store T D S :=
  actions.foldl (fun s a => a.apply s) state

/-! ## Strings -/

/-- The code points that `String.prototype.trim` and `parseInt` strip: the
productions WhiteSpace and LineTerminator of the language. -/
def isStrWhiteSpaceChar (c : Char) : Bool :=
  let n := c.toNat
  n == 0x09 || n == 0x0A || n == 0x0B || n == 0x0C || n == 0x0D || n == 0x20 || n == 0xA0
    || n == 0x1680 || (0x2000 ≤ n && n ≤ 0x200A) || n == 0x2028 || n == 0x2029
    || n == 0x202F || n == 0x205F || n == 0x3000 || n == 0xFEFF

/-- Characters of `s.trim()`. -/
def trimChars (cs : List Char) : List Char :=
  ((cs.dropWhile isStrWhiteSpaceChar).reverse.dropWhile isStrWhiteSpaceChar).reverse

/-- The method `String.prototype.trim`. -/
def jsTrim (s : String) : String :=
  ⟨trimChars s.data⟩

/-- Characters of `s.includes(sep)`: does `sep` occur somewhere in the text. -/
def includesChars (sep : List Char) : List Char → Bool
  | [] => sep.isPrefixOf []
  | c :: cs => sep.isPrefixOf (c :: cs) || includesChars sep cs

/-- The method `String.prototype.includes`. -/
def jsIncludes (s sep : String) : Bool :=
  includesChars sep.data s.data

/-- Pieces of the text between the successive occurrences of a non-empty
separator, found from left to right without overlap.  `skip` counts the
characters of a separator just matched that are still to be passed over. -/
def splitChars (sep : List Char) : Nat → List Char → List (List Char)
  | _, [] => [[]]
  | skip + 1, _ :: cs => splitChars sep skip cs
  | 0, c :: cs =>
    if sep.isPrefixOf (c :: cs) then
      [] :: splitChars sep (sep.length - 1) cs
    else
      match splitChars sep 0 cs with
      | [] => [[c]]
      | piece :: pieces => (c :: piece) :: pieces

/-- The method `String.prototype.split` with a string separator (an empty
separator splits between all characters). -/
def jsSplit (s sep : String) : List String :=
  if sep.data.isEmpty then s.data.map fun c => ⟨[c]⟩
  else (splitChars sep.data 0 s.data).map String.mk

/-! ## `parseInt` -/

/-- Value of a character as a digit in radix up to 36. -/
def digitValue (c : Char) : Option Nat :=
  let n := c.toNat
  if 48 ≤ n ∧ n ≤ 57 then some (n - 48)
  else if 97 ≤ n ∧ n ≤ 122 then some (n - 87)
  else if 65 ≤ n ∧ n ≤ 90 then some (n - 55)
  else none

/-- Is the character a digit of the given radix. -/
def isRadixDigit (radix : Nat) (c : Char) : Bool :=
  match digitValue c with
  | some d => d < radix
  | none => false

/-- Number of binary digits of `n`, computed with a fuel of at least that many steps. -/
def bitLength : Nat → Nat → Nat
  | 0, _ => 0
  | fuel + 1, n => if n = 0 then 0 else bitLength fuel (n / 2) + 1

/-- Rounding of a natural number to the nearest double (ties to even): the
value of that double, or `none` when the result is `Infinity`. -/
def roundToDouble (n : Nat) : Option Nat :=
  if n < 2 ^ 53 then some n
  else
    let e := bitLength n n - 53
    let q := n / 2 ^ e
    let r := n % 2 ^ e
    let half := 2 ^ (e - 1)
    let q1 := if half < r ∨ (r = half ∧ q % 2 = 1) then q + 1 else q
    if 2 ^ 1024 ≤ q1 * 2 ^ e then none else some (q1 * 2 ^ e)

/-- The Number for `sign × mathInt` (the last two steps of `parseInt`). -/
def toNumber (negative : Bool) (mathInt : Nat) : JSNumber :=
  match roundToDouble mathInt with
  | some v => .int (if negative then -(v : Int) else v)
  | none => .inf negative

/-- Steps 3 and 4 of `parseInt`: read a sign; the result is whether it was `-`
and the text after it. -/
def stripSign : List Char → Bool × List Char
  | '-' :: rest => (true, rest)
  | '+' :: rest => (false, rest)
  | s => (false, s)

/-- Step 6 of `parseInt` when no radix is passed: `0x` or `0X` selects radix 16
and is removed, otherwise the radix is 10. -/
def stripRadix : List Char → Nat × List Char
  | '0' :: 'x' :: rest => (16, rest)
  | '0' :: 'X' :: rest => (16, rest)
  | s => (10, s)

/-- Steps 7 to 12 of `parseInt`: take the longest run of digits of the radix,
answer `NaN` when it is empty and the Number of its value otherwise. -/
def parseDigits (negative : Bool) (radix : Nat) (s : List Char) : JSNumber :=
  let z := s.takeWhile (isRadixDigit radix)
  if z.isEmpty then .nan
  else toNumber negative (z.foldl (fun acc c => acc * radix + (digitValue c).getD 0) 0)

/-- The global function `parseInt(string)` called with one argument, following
the steps of the language specification: strip leading white space, read a
sign, read `0x`/`0X`, then read the digits.  (For more than 20 significant
decimal digits the specification lets an engine approximate; the exact value
is taken here.) -/
def parseInt (string : String) : JSNumber :=
  let signed := stripSign (string.data.dropWhile isStrWhiteSpaceChar)
  let based := stripRadix signed.2
  parseDigits signed.1 based.1 based.2

/-! ## The filter panel (`FilterPanel.jsx`) -/

/-- Value handed to `setFilter` by the two select boxes, `FilterPanel.jsx:31,46`:
`e.target.value || null`. -/
def selectValue (value : String) : JSValue :=
  (JSValue.string value).or .null

/-- Value handed to `setFilter` by the two numeric inputs, `FilterPanel.jsx:69,80`:
`e.target.value ? parseInt(e.target.value) : null`. -/
def numericValue (value : String) : JSValue :=
  if (JSValue.string value).truthy then .number (parseInt value) else .null

/-- The `onChange` handler of a numeric input: `setFilter(key, numericValue)`. -/
def onNumericChange {T D S : Type} (key : FilterKey) (value : String) (state : Store T D S) :
    Store T D S :=
  setFilter key (numericValue value) state

/-! ## The list view (`TrajectoryList.jsx`) -/

/-- The `onClick` of the next-page button, `TrajectoryList.jsx:110-113`:
`nextPage()` at once, then `fetchTrajectories()` from a timer, on the state
that `useStore.getState()` returns when the timer fires.  With no other action
before the timer fires: the state after `nextPage` and the query of the request
then sent. -/
def onNextClick {T D S : Type} (toStr : JSValue → String) (state : Store T D S) :
    Store T D S × List (String × String) :=
  let paged := nextPage state
  (paged, fetchTrajectoriesRequest toStr paged)

/-! ## The message renderer (`MessageBubble.jsx`) -/

/-- One transcript entry; `thought` and `action` are optional strings. -/
structure Message where
  role : String
  content : String
  thought : Option String
  action : Option String
  deriving DecidableEq, Repr

/-- An optional string property as a value: `undefined` when absent. -/
def JSValue.ofOption : Option String → JSValue
  | none => .undefined
  | some s => .string s

/-- The JSX child `{v && <block>{v}</block>}` for an optional string `v`: the
block showing `v` when `v` is truthy, nothing otherwise. -/
def blockIfTruthy (v : Option String) : Option String :=
  match v with
  | some s => if (JSValue.ofOption v).truthy then some s else none
  | none => none

/-- What the agent branch renders, `MessageBubble.jsx:6-47`: the step label and
the texts of the THOUGHT block, the ACTION block and the raw-content block
(`none`: the block is not rendered). -/
structure AgentBubble where
  stepLabel : Nat
  thought : Option String
  action : Option String
  content : Option String
  deriving DecidableEq, Repr

/-- Body of an environment bubble, `MessageBubble.jsx:70-102`: either the
formatted layout with its narration, TASK and AVAILABLE ACTIONS blocks (`none`:
not rendered), or the content as it is. -/
inductive HumanBody where
  | formatted (narration task actions : Option String)
  | plain (content : String)
  deriving DecidableEq, Repr

/-- What the human branch renders, `MessageBubble.jsx:50-107`; `initial` selects
the framed style. -/
structure HumanBubble where
  initial : Bool
  body : HumanBody
  deriving DecidableEq, Repr

/-- Result of the component: an agent bubble, an environment bubble, or `null`. -/
inductive Bubble where
  | agent (b : AgentBubble)
  | human (b : HumanBubble)
  | null
  deriving DecidableEq, Repr

/-- The marker of the task description, `MessageBubble.jsx:55`. -/
def taskMarker : String := "Your task is to:"

/-- The marker of the action list, `MessageBubble.jsx:56`. -/
def actionsMarker : String := "AVAILABLE ACTIONS:"

/-- The line separator `'\n'` of `MessageBubble.jsx:83`. -/
def newline : String := "\n"

/-- Narration of the formatted layout, `MessageBubble.jsx:73-77`: the first piece of
`content.split('Your task is to:')`, trimmed, shown when the piece is truthy. -/
def narrationBlock (content : String) : Option String :=
  match (jsSplit content taskMarker)[0]? with
  | some piece => if (JSValue.string piece).truthy then some (jsTrim piece) else none
  | none => none

/-- Text of the TASK block, `MessageBubble.jsx:83`:
`content.split('Your task is to:')[1].split('\n')[0].trim()`; `none` when an
index yields `undefined` and the next method call throws. -/
def taskText (content : String) : Option String := do
  let piece ← (jsSplit content taskMarker)[1]?
  let line ← (jsSplit piece newline)[0]?
  pure (jsTrim line)

/-- Text of the AVAILABLE ACTIONS block, `MessageBubble.jsx:92`:
`content.split('AVAILABLE ACTIONS:')[1].trim()`; `none` when the index yields
`undefined` and `trim` throws. -/
def actionsText (content : String) : Option String := do
  let piece ← (jsSplit content actionsMarker)[1]?
  pure (jsTrim piece)

/-- The component `MessageBubble({ message, index })`; `none` stands for a
`TypeError` thrown while rendering. -/
def MessageBubble (message : Message) (index : Nat) : Option Bubble :=
  let isHuman := message.role == "human"
  let isAgent := message.role == "agent"
  if isAgent then
    some (.agent
      { stepLabel := index / 2 + 1
        thought := blockIfTruthy message.thought
        action := blockIfTruthy message.action
        content :=
          if !(JSValue.ofOption message.thought).truthy
              && !(JSValue.ofOption message.action).truthy then
            some message.content
          else none })
  else if isHuman then
    let isInitial := jsIncludes message.content "Interact with a household"
    let hasTask := jsIncludes message.content taskMarker
    let hasAvailableActions := jsIncludes message.content actionsMarker
    if hasTask then do
      let narration := narrationBlock message.content
      let task ← if hasTask then (taskText message.content).map some else pure none
      let actions ←
        if hasAvailableActions then (actionsText message.content).map some else pure none
      pure (.human { initial := isInitial, body := .formatted narration task actions })
    else
      some (.human { initial := isInitial, body := .plain message.content })
  else
    some .null

/-! ## The detail view (`TrajectoryViewer.jsx`) -/

/-- One trajectory with its transcript, as `TrajectoryViewer.jsx` reads it. -/
structure TrajectoryDetail where
  id : String
  task : Option String
  status : String
  task_type : String
  steps : Int
  environment : Option String
  messages : List Message
  deriving DecidableEq, Repr

/-- The call `messages.map((message, index) => ...)` on the part of the array
that starts at position `start`: each message is rendered with its position. -/
def mapBubbles (start : Nat) : List Message → List (Option Bubble)
  | [] => []
  | message :: rest => MessageBubble message start :: mapBubbles (start + 1) rest

/-- The transcript region of the detail view, `TrajectoryViewer.jsx:52-54`: one
`MessageBubble` per message, given the message and its array index. -/
def transcript (currentTrajectory : TrajectoryDetail) : List (Option Bubble) :=
  mapBubbles 0 currentTrajectory.messages

/-! ## Notions used to state the properties -/

/-- The first line of a text: its characters before the first line feed. -/
def firstLine (s : String) : String :=
  ⟨s.data.takeWhile fun c => c != Char.ofNat 10⟩

/-- Value of a run of decimal digits. -/
def decimalValue (digits : List Char) : Nat :=
  digits.foldl (fun acc c => acc * 10 + (c.toNat - 48)) 0

/-- The step label a rendered bubble shows, if it shows one: only the agent
bubble has a `Step #` caption, `MessageBubble.jsx:11`. -/
def Bubble.stepLabel? : Option Bubble → Option Nat
  | some (.agent b) => some b.stepLabel
  | _ => none

/-- The step label shown for the message at a position of the transcript, if
there is a message there and its bubble shows one. -/
def stepLabelAt (currentTrajectory : TrajectoryDetail) (position : Nat) : Option Nat :=
  match (transcript currentTrajectory)[position]? with
  | some bubble => Bubble.stepLabel? bubble
  | none => none

/-! ## Properties of the store: filters, pagination and the list request -/

/-- Membership in the pairs contributed by one conditional spread. -/
theorem mem_spreadIfTruthy (toStr : JSValue → String) (name n v : String) (x : JSValue) :
    (n, v) ∈ (spreadIfTruthy name x).map (fun p => (p.1, toStr p.2))
      ↔ n = name ∧ x.truthy = true ∧ v = toStr x := by
  unfold spreadIfTruthy
  by_cases h : x.truthy = true <;> simp [h]

/-- The query parameters in order: `skip`, `limit`, then one pair for each
truthy filter field. -/
theorem params_eq (toStr : JSValue → String) (f : Filters) (p : Pagination) :
    URLSearchParams toStr (queryRecord f p)
      = [("skip", toStr (.number (.int p.skip))), ("limit", toStr (.number (.int p.limit)))]
        ++ (if f.status.truthy then [("status", toStr f.status)] else [])
        ++ (if f.taskType.truthy then [("task_type", toStr f.taskType)] else [])
        ++ (if f.minSteps.truthy then [("min_steps", toStr f.minSteps)] else [])
        ++ (if f.maxSteps.truthy then [("max_steps", toStr f.maxSteps)] else []) := by
  simp only [URLSearchParams, queryRecord, spreadIfTruthy, List.map_append, List.map_cons,
    List.map_nil, apply_ite (List.map _)]

/-- C1, as stated, fails: with `maxSteps = 0` (not `null`) and the other filters
`null`, the object handed to `URLSearchParams` holds `skip` and `limit` only, so
no `max_steps` parameter is sent. -/
theorem fetchTrajectories_omits_zero_maxSteps :
    ({ defaultFilters with maxSteps := .number (.int 0) } : Filters).maxSteps ≠ .null
      ∧ queryRecord { defaultFilters with maxSteps := .number (.int 0) } { skip := 0, limit := 50 }
          = [("skip", .number (.int 0)), ("limit", .number (.int 50))]
      ∧ ∀ toStr : JSValue → String,
          (fetchTrajectoriesRequest toStr
            ({ (initialStore : Store Unit Unit Unit) with
                filters := { defaultFilters with maxSteps := .number (.int 0) } })).map Prod.fst
            = ["skip", "limit"] := by
  refine ⟨by decide, by decide, fun toStr => ?_⟩
  rfl

/-- C1, amended: the query of `fetchTrajectories` is, in this order, `skip`,
`limit` and then those of `status`, `task_type`, `min_steps`, `max_steps` whose
filter field is truthy, each with the string form of that field.  So `skip` and
`limit` are always sent, and an optional parameter is sent exactly when its
field is truthy: never for `null` (nor for `0`, `NaN` or the empty string),
always for a non-zero integer or a non-empty string. -/
theorem fetchTrajectories_query_truthy {T D S : Type} (toStr : JSValue → String)
    (state : Store T D S) :
    fetchTrajectoriesRequest toStr state
        = [("skip", toStr (.number (.int state.pagination.skip))),
            ("limit", toStr (.number (.int state.pagination.limit)))]
          ++ (if state.filters.status.truthy then
                [("status", toStr state.filters.status)] else [])
          ++ (if state.filters.taskType.truthy then
                [("task_type", toStr state.filters.taskType)] else [])
          ++ (if state.filters.minSteps.truthy then
                [("min_steps", toStr state.filters.minSteps)] else [])
          ++ (if state.filters.maxSteps.truthy then
                [("max_steps", toStr state.filters.maxSteps)] else [])
      ∧ (∀ v, ("skip", v) ∈ fetchTrajectoriesRequest toStr state
          ↔ v = toStr (.number (.int state.pagination.skip)))
      ∧ (∀ v, ("limit", v) ∈ fetchTrajectoriesRequest toStr state
          ↔ v = toStr (.number (.int state.pagination.limit)))
      ∧ (∀ v, ("status", v) ∈ fetchTrajectoriesRequest toStr state
          ↔ state.filters.status.truthy = true ∧ v = toStr state.filters.status)
      ∧ (∀ v, ("task_type", v) ∈ fetchTrajectoriesRequest toStr state
          ↔ state.filters.taskType.truthy = true ∧ v = toStr state.filters.taskType)
      ∧ (∀ v, ("min_steps", v) ∈ fetchTrajectoriesRequest toStr state
          ↔ state.filters.minSteps.truthy = true ∧ v = toStr state.filters.minSteps)
      ∧ (∀ v, ("max_steps", v) ∈ fetchTrajectoriesRequest toStr state
          ↔ state.filters.maxSteps.truthy = true ∧ v = toStr state.filters.maxSteps)
      ∧ JSValue.null.truthy = false
      ∧ JSValue.truthy (.number (.int 0)) = false
      ∧ JSValue.truthy (.number .nan) = false
      ∧ JSValue.truthy (.string "") = false
      ∧ (∀ z : Int, z ≠ 0 → JSValue.truthy (.number (.int z)) = true)
      ∧ (∀ s : String, s ≠ "" → JSValue.truthy (.string s) = true) := by
  refine ⟨params_eq toStr _ _, ?_, ?_, ?_, ?_, ?_, ?_, rfl, rfl, rfl, rfl, ?_, ?_⟩
  all_goals first
    | (intro v
       simp only [fetchTrajectoriesRequest, fetchTrajectoriesStart, fetchTrajectoriesParams,
         URLSearchParams, queryRecord, List.map_append,
         List.mem_append, mem_spreadIfTruthy, List.map_cons, List.map_nil, List.mem_cons,
         Prod.mk.injEq, List.not_mem_nil, or_false]
       simp)
    | (intro z hz
       simpa [JSValue.truthy] using hz)

/-- C2: `setFilter(key, value)` sets `pagination.skip` to 0 whatever it was,
keeps `pagination.limit`, replaces the field `key` of the filters by `value`
and keeps the other three fields, and leaves `trajectories`,
`currentTrajectory`, `statistics`, `loading` and `error` as they were. -/
theorem setFilter_resets_skip {T D S : Type} (key : FilterKey) (value : JSValue)
    (state : Store T D S) :
    (setFilter key value state).pagination.skip = 0
      ∧ (setFilter key value state).pagination.limit = state.pagination.limit
      ∧ (∀ k : FilterKey, (setFilter key value state).filters.get k
          = if k = key then value else state.filters.get k)
      ∧ (setFilter key value state).trajectories = state.trajectories
      ∧ (setFilter key value state).currentTrajectory = state.currentTrajectory
      ∧ (setFilter key value state).statistics = state.statistics
      ∧ (setFilter key value state).loading = state.loading
      ∧ (setFilter key value state).error = state.error := by
  refine ⟨rfl, rfl, ?_, rfl, rfl, rfl, rfl, rfl⟩
  intro k
  cases key <;> cases k <;> rfl

/-- C3: `prevPage` sets `pagination.skip` to `max(0, skip - limit)`, which is
never negative, and keeps `limit`; from `skip = 30`, `limit = 50` the new skip
is 0 (not -20). -/
theorem prevPage_clamps_at_zero {T D S : Type} (state : Store T D S) :
    (prevPage state).pagination.skip = max 0 (state.pagination.skip - state.pagination.limit)
      ∧ 0 ≤ (prevPage state).pagination.skip
      ∧ (prevPage state).pagination.limit = state.pagination.limit
      ∧ (prevPage { state with pagination := { skip := 30, limit := 50 } }).pagination
          = { skip := 0, limit := 50 } := by
  refine ⟨rfl, ?_, rfl, ?_⟩
  · exact le_max_left _ _
  · simp [prevPage]

/-- C4: `nextPage` sets `pagination.skip` to `skip + limit`, for every state
(there is no upper bound), and keeps `limit`; the query that
`fetchTrajectories` builds from the state after `nextPage`, as the next-page
button makes it do, has `skip` equal to the old skip plus the limit, and
nothing else under `skip`, and `limit` equal to the unchanged limit. -/
theorem nextPage_then_fetch_uses_new_skip {T D S : Type} (toStr : JSValue → String)
    (state : Store T D S) :
    (nextPage state).pagination.skip = state.pagination.skip + state.pagination.limit
      ∧ (nextPage state).pagination.limit = state.pagination.limit
      ∧ (queryRecord (nextPage state).filters (nextPage state).pagination).lookup "skip"
          = some (.number (.int (state.pagination.skip + state.pagination.limit)))
      ∧ (queryRecord (nextPage state).filters (nextPage state).pagination).lookup "limit"
          = some (.number (.int state.pagination.limit))
      ∧ (∀ v, ("skip", v) ∈ fetchTrajectoriesRequest toStr (nextPage state)
          ↔ v = toStr (.number (.int (state.pagination.skip + state.pagination.limit))))
      ∧ (∀ v, ("limit", v) ∈ fetchTrajectoriesRequest toStr (nextPage state)
          ↔ v = toStr (.number (.int state.pagination.limit)))
      ∧ (onNextClick toStr state).1 = nextPage state
      ∧ (onNextClick toStr state).2.take 2
          = [("skip", toStr (.number (.int (state.pagination.skip + state.pagination.limit)))),
              ("limit", toStr (.number (.int state.pagination.limit)))] := by
  refine ⟨rfl, rfl, ?_, ?_, ?_, ?_, rfl, rfl⟩
  · simp [queryRecord, nextPage, List.lookup]
  · simp [queryRecord, nextPage, List.lookup]
  all_goals
    intro v
    simp only [fetchTrajectoriesRequest, fetchTrajectoriesStart, fetchTrajectoriesParams,
      URLSearchParams, queryRecord, List.map_append,
      List.mem_append, mem_spreadIfTruthy, List.map_cons, List.map_nil, List.mem_cons,
      Prod.mk.injEq, List.not_mem_nil, or_false, nextPage]
    simp

/-- C5: `clearFilters` leaves the filters exactly
`{status: null, taskType: null, minSteps: null, maxSteps: null}` and the
pagination exactly `{skip: 0, limit: 50}`, whatever they were; these are the
values of the initial state. -/
theorem clearFilters_restores_defaults {T D S : Type} (state : Store T D S) :
    (clearFilters state).filters
        = { status := .null, taskType := .null, minSteps := .null, maxSteps := .null }
      ∧ (clearFilters state).pagination = { skip := 0, limit := 50 }
      ∧ (clearFilters state).filters = (initialStore : Store T D S).filters
      ∧ (clearFilters state).pagination = (initialStore : Store T D S).pagination :=
  ⟨rfl, rfl, rfl, rfl⟩

/-- C6: one call of `fetchTrajectories`. When the request fails (the transport
throws, the response is not ok, or the body does not parse) the trajectories are
those from before the call, `error` is the message of the failure and `loading`
is false; when it succeeds the trajectories are the returned list, `loading` is
false and `error` is `null`. In every case filters, pagination,
`currentTrajectory` and `statistics` are unchanged. -/
theorem fetchTrajectories_outcome {T D S : Type} (state : Store T D S)
    (outcome : FetchOutcome (List T)) (message : String) (data : List T) :
    ((fetchTrajectories (.transportError message) state).trajectories = state.trajectories
        ∧ (fetchTrajectories (.transportError message) state).error = some message
        ∧ (fetchTrajectories (.transportError message) state).loading = false)
      ∧ ((fetchTrajectories .notOk state).trajectories = state.trajectories
        ∧ (fetchTrajectories .notOk state).error = some "Failed to fetch trajectories"
        ∧ (fetchTrajectories .notOk state).loading = false)
      ∧ ((fetchTrajectories (.jsonError message) state).trajectories = state.trajectories
        ∧ (fetchTrajectories (.jsonError message) state).error = some message
        ∧ (fetchTrajectories (.jsonError message) state).loading = false)
      ∧ ((fetchTrajectories (.ok data) state).trajectories = data
        ∧ (fetchTrajectories (.ok data) state).error = none
        ∧ (fetchTrajectories (.ok data) state).loading = false)
      ∧ (fetchTrajectories outcome state).filters = state.filters
      ∧ (fetchTrajectories outcome state).pagination = state.pagination
      ∧ (fetchTrajectories outcome state).currentTrajectory = state.currentTrajectory
      ∧ (fetchTrajectories outcome state).statistics = state.statistics := by
  refine ⟨⟨rfl, rfl, rfl⟩, ⟨rfl, rfl, rfl⟩, ⟨rfl, rfl, rfl⟩, ⟨rfl, rfl, rfl⟩, ?_, ?_, ?_, ?_⟩
  all_goals cases outcome <;> rfl

/-! ## Properties of `includes` and `split` -/

theorem splitChars_skip (sep : List Char) :
    ∀ (k : Nat) (cs : List Char), splitChars sep k cs = splitChars sep 0 (cs.drop k)
  | 0, cs => by simp
  | k + 1, [] => by simp [splitChars]
  | k + 1, c :: cs => by simp [splitChars, splitChars_skip sep k cs]

theorem splitChars_ne_nil (sep : List Char) :
    ∀ (k : Nat) (cs : List Char), splitChars sep k cs ≠ []
  | _, [] => by simp [splitChars]
  | k + 1, c :: cs => by simpa [splitChars] using splitChars_ne_nil sep k cs
  | 0, c :: cs => by
    unfold splitChars
    split_ifs
    · simp
    · split <;> simp

theorem splitChars_of_not_includes (sep : List Char) :
    ∀ cs : List Char, includesChars sep cs = false → splitChars sep 0 cs = [cs]
  | [], _ => by simp [splitChars]
  | c :: cs, h => by
    simp only [includesChars, Bool.or_eq_false_iff] at h
    unfold splitChars
    rw [if_neg (by simp [h.1]), splitChars_of_not_includes sep cs h.2]

theorem includesChars_iff_infix (sep : List Char) :
    ∀ cs : List Char, includesChars sep cs = true ↔ sep <:+: cs
  | [] => by simp [includesChars, List.isPrefixOf_iff_prefix]
  | c :: cs => by
    simp only [includesChars, Bool.or_eq_true, List.isPrefixOf_iff_prefix,
      includesChars_iff_infix sep cs, List.infix_cons_iff]

theorem splitChars_cons_of_match (sep : List Char) (c : Char) (cs : List Char)
    (h : sep.isPrefixOf (c :: cs) = true) :
    splitChars sep 0 (c :: cs) = [] :: splitChars sep (sep.length - 1) cs := by
  rw [splitChars, if_pos h]

theorem splitChars_cons_of_no_match (sep : List Char) (c : Char) (cs piece : List Char)
    (pieces : List (List Char)) (h : sep.isPrefixOf (c :: cs) = false)
    (hcs : splitChars sep 0 cs = piece :: pieces) :
    splitChars sep 0 (c :: cs) = (c :: piece) :: pieces := by
  rw [splitChars, if_neg (by simp [h]), hcs]

theorem splitChars_first (sep : List Char) (hsep : sep ≠ []) (post : List Char) :
    ∀ pre : List Char, ¬ sep <:+: pre ++ sep.dropLast →
      splitChars sep 0 (pre ++ sep ++ post) = pre :: splitChars sep 0 post
  | [], _ => by
    obtain ⟨c, rest, rfl⟩ := List.exists_cons_of_ne_nil hsep
    have hp : (c :: rest).isPrefixOf (c :: (rest ++ post)) = true := by
      rw [List.isPrefixOf_iff_prefix]
      exact ⟨post, by simp⟩
    simp only [List.nil_append, List.cons_append]
    rw [splitChars_cons_of_match _ _ _ hp, splitChars_skip]
    simp
  | a :: pre, h => by
    have h1 : ¬ sep <:+: pre ++ sep.dropLast := fun hc =>
      h (by simpa using List.infix_cons hc)
    have h2 : (sep.isPrefixOf (a :: (pre ++ sep ++ post))) = false := by
      rw [Bool.eq_false_iff]
      intro hc
      rw [List.isPrefixOf_iff_prefix] at hc
      apply h
      have hl : (a :: pre ++ sep.dropLast) <+: (a :: (pre ++ sep ++ post)) := by
        refine ⟨[sep.getLast hsep] ++ post, ?_⟩
        have := List.dropLast_append_getLast hsep
        simp only [List.cons_append, List.append_assoc, List.cons.injEq, true_and,
          List.append_cancel_left_eq]
        have hsplit : sep ++ post = sep.dropLast ++ (sep.getLast hsep :: post) := by
          conv_lhs => rw [← this]
          simp
        simp [hsplit]
      have hlen : sep.length ≤ (a :: pre ++ sep.dropLast).length := by
        have := List.length_pos_of_ne_nil hsep
        simp
        omega
      exact (List.prefix_of_prefix_length_le hc hl hlen).isInfix
    have ih := splitChars_first sep hsep post pre h1
    exact splitChars_cons_of_no_match _ _ _ _ _ h2 ih

theorem not_infix_append_dropLast (sep pre : List Char)
    (hlast : ∀ x ∈ sep.getLast?, x ∉ sep.dropLast) (h : ¬ sep <:+: pre) :
    ¬ sep <:+: pre ++ sep.dropLast := by
  rintro ⟨s, t, hst⟩
  rcases List.append_eq_append_iff.1 hst with ⟨a, ha, _⟩ | ⟨c, hc, hd⟩
  · exact h ⟨s, a, ha.symm⟩
  · rcases List.append_eq_append_iff.1 hc with ⟨a, ha, hb⟩ | ⟨c2, _, hb⟩
    · by_cases hc0 : c = []
      · subst hc0
        simp only [List.append_nil] at hb
        exact h ⟨s, [], by simp [ha, hb]⟩
      · have hx : sep.getLast? = some (c.getLast hc0) := by
          rw [hb, List.getLast?_append_of_ne_nil _ hc0, List.getLast?_eq_getLast _ hc0]
        refine hlast _ hx ?_
        rw [hd]
        exact List.mem_append_left _ (List.getLast_mem hc0)
    · have hne : sep ≠ [] := by
        rintro rfl
        exact h List.nil_infix
      have hpos := List.length_pos_of_ne_nil hne
      have hlen := congrArg List.length hd
      rw [hb, List.length_dropLast, List.length_append, List.length_append] at hlen
      omega

theorem splitChars_single (c : Char) :
    ∀ l : List Char, ∃ pieces, splitChars [c] 0 l = l.takeWhile (fun x => x != c) :: pieces
  | [] => ⟨[], by simp [splitChars]⟩
  | x :: xs => by
    obtain ⟨pieces, ih⟩ := splitChars_single c xs
    by_cases hx : x = c
    · subst hx
      refine ⟨splitChars [x] 0 xs, ?_⟩
      rw [splitChars_cons_of_match _ _ _ (by simp [List.isPrefixOf])]
      simp
    · refine ⟨pieces, ?_⟩
      rw [splitChars_cons_of_no_match _ _ _ _ _ (by simp [List.isPrefixOf, Ne.symm hx]) ih]
      simp [hx]

theorem splitChars_two_pieces (sep : List Char) (hsep : sep ≠ []) :
    ∀ cs : List Char, includesChars sep cs = true →
      ∃ p q rest, splitChars sep 0 cs = p :: q :: rest
  | [], h => by
    cases sep with
    | nil => exact absurd rfl hsep
    | cons a l => simp [includesChars, List.isPrefixOf] at h
  | c :: cs, h => by
    by_cases hp : sep.isPrefixOf (c :: cs) = true
    · rw [splitChars_cons_of_match _ _ _ hp]
      obtain ⟨q, rest, hq⟩ := List.exists_cons_of_ne_nil (splitChars_ne_nil sep (sep.length - 1) cs)
      exact ⟨[], q, rest, by rw [hq]⟩
    · simp only [includesChars, Bool.or_eq_true] at h
      have hcs : includesChars sep cs = true := h.resolve_left hp
      obtain ⟨p, q, rest, ih⟩ := splitChars_two_pieces sep hsep cs hcs
      exact ⟨c :: p, q, rest,
        splitChars_cons_of_no_match _ _ _ _ _ (Bool.eq_false_iff.2 hp) ih⟩

theorem takeWhile_splitChars_head (sep : List Char) (nl : Char) (hnl : ∀ x ∈ sep, x ≠ nl) :
    ∀ post : List Char, ¬ sep <:+: post.takeWhile (fun x => x != nl) →
      ∃ piece pieces, splitChars sep 0 post = piece :: pieces
        ∧ piece.takeWhile (fun x => x != nl) = post.takeWhile (fun x => x != nl)
  | [], _ => ⟨[], [], by simp [splitChars], rfl⟩
  | c :: cs, h => by
    by_cases hc : c = nl
    · subst hc
      by_cases hp : sep.isPrefixOf (c :: cs) = true
      · exact ⟨[], _, splitChars_cons_of_match _ _ _ hp, by simp⟩
      · obtain ⟨p, ps, hps⟩ := List.exists_cons_of_ne_nil (splitChars_ne_nil sep 0 cs)
        exact ⟨c :: p, ps, splitChars_cons_of_no_match _ _ _ _ _ (Bool.eq_false_iff.2 hp) hps,
          by simp⟩
    · have htw : (c :: cs).takeWhile (fun x => x != nl)
          = c :: cs.takeWhile (fun x => x != nl) := by simp [hc]
      rw [htw] at h
      have h1 : ¬ sep <:+: cs.takeWhile (fun x => x != nl) := fun hi => h (List.infix_cons hi)
      have hp : sep.isPrefixOf (c :: cs) = false := by
        rw [Bool.eq_false_iff]
        intro hpre
        rw [List.isPrefixOf_iff_prefix] at hpre
        obtain ⟨t, ht⟩ := hpre
        apply h
        rw [← htw, ← ht, List.takeWhile_append_of_pos (by simpa using hnl)]
        exact (List.prefix_append _ _).isInfix
      obtain ⟨piece, pieces, hsplit, htake⟩ := takeWhile_splitChars_head sep nl hnl cs h1
      exact ⟨c :: piece, pieces, splitChars_cons_of_no_match _ _ _ _ _ hp hsplit,
        by simp [hc, htake]⟩

/-! ## Properties of the message renderer -/

theorem jsIncludes_eq_false_iff (s sep : String) :
    jsIncludes s sep = false ↔ ¬ sep.data <:+: s.data := by
  rw [← includesChars_iff_infix, jsIncludes, Bool.not_eq_true]

theorem jsSplit_of_ne (s sep : String) (hsep : sep.data ≠ []) :
    jsSplit s sep = (splitChars sep.data 0 s.data).map String.mk := by
  unfold jsSplit
  rw [if_neg]
  simpa using hsep

/-- When the separator does not occur in `pre` (and cannot straddle its end),
the pieces of `pre ++ sep ++ post` are `pre` and then the pieces of `post`. -/
theorem jsSplit_first (pre sep post : String) (hsep : sep.data ≠ [])
    (hlast : ∀ x ∈ sep.data.getLast?, x ∉ sep.data.dropLast)
    (hpre : jsIncludes pre sep = false) :
    jsSplit (pre ++ sep ++ post) sep = pre :: jsSplit post sep := by
  rw [jsSplit_of_ne _ _ hsep, jsSplit_of_ne _ _ hsep, String.data_append, String.data_append,
    splitChars_first _ hsep _ _
      (not_infix_append_dropLast _ _ hlast ((jsIncludes_eq_false_iff _ _).1 hpre))]
  rfl

theorem taskMarker_data_ne : taskMarker.data ≠ [] := by decide

theorem taskMarker_last : ∀ x ∈ taskMarker.data.getLast?, x ∉ taskMarker.data.dropLast := by
  decide

theorem taskMarker_no_newline : ∀ x ∈ taskMarker.data, x ≠ Char.ofNat 10 := by decide

theorem actionsMarker_data_ne : actionsMarker.data ≠ [] := by decide

theorem actionsMarker_last :
    ∀ x ∈ actionsMarker.data.getLast?, x ∉ actionsMarker.data.dropLast := by
  decide

theorem narrationBlock_first (pre post : String) (hpre : jsIncludes pre taskMarker = false) :
    narrationBlock (pre ++ taskMarker ++ post) = if pre = "" then none else some (jsTrim pre) := by
  unfold narrationBlock
  rw [jsSplit_first _ _ _ taskMarker_data_ne taskMarker_last hpre]
  by_cases h : pre = "" <;> simp [JSValue.truthy, h]

theorem taskText_first (pre post : String) (hpre : jsIncludes pre taskMarker = false)
    (hline : jsIncludes (firstLine post) taskMarker = false) :
    taskText (pre ++ taskMarker ++ post) = some (jsTrim (firstLine post)) := by
  unfold taskText
  rw [jsSplit_first _ _ _ taskMarker_data_ne taskMarker_last hpre]
  obtain ⟨piece, pieces, hsplit, htake⟩ :=
    takeWhile_splitChars_head taskMarker.data (Char.ofNat 10) taskMarker_no_newline post.data
      ((jsIncludes_eq_false_iff _ _).1 hline)
  obtain ⟨lines, hlines⟩ := splitChars_single (Char.ofNat 10) piece
  have h1 : (pre :: jsSplit post taskMarker)[1]? = some ⟨piece⟩ := by
    rw [jsSplit_of_ne _ _ taskMarker_data_ne, hsplit]
    simp
  have h2 : (jsSplit ⟨piece⟩ newline)[0]? = some (firstLine post) := by
    rw [jsSplit_of_ne _ _ (by decide)]
    show (List.map String.mk (splitChars [Char.ofNat 10] 0 piece))[0]? = _
    rw [hlines, htake]
    simp [firstLine]
  rw [h1]
  simp only [Option.bind_eq_bind, Option.some_bind, h2]
  rfl

theorem jsIncludes_append (pre sep post : String) :
    jsIncludes (pre ++ sep ++ post) sep = true := by
  rw [jsIncludes, includesChars_iff_infix, String.data_append, String.data_append]
  exact ⟨pre.data, post.data, rfl⟩

theorem actionsText_isSome (content : String)
    (h : jsIncludes content actionsMarker = true) : ∃ a, actionsText content = some a := by
  obtain ⟨p, q, rest, hsplit⟩ :=
    splitChars_two_pieces actionsMarker.data actionsMarker_data_ne content.data h
  refine ⟨jsTrim ⟨q⟩, ?_⟩
  unfold actionsText
  rw [jsSplit_of_ne _ _ actionsMarker_data_ne, hsplit]
  simp

theorem taskText_isSome (content : String)
    (h : jsIncludes content taskMarker = true) : ∃ a, taskText content = some a := by
  obtain ⟨p, q, rest, hsplit⟩ :=
    splitChars_two_pieces taskMarker.data taskMarker_data_ne content.data h
  obtain ⟨lines, hlines⟩ := splitChars_single (Char.ofNat 10) q
  refine ⟨jsTrim ⟨q.takeWhile fun x => x != Char.ofNat 10⟩, ?_⟩
  unfold taskText
  rw [jsSplit_of_ne _ _ taskMarker_data_ne, hsplit]
  have h2 : (jsSplit ⟨q⟩ newline)[0]? = some ⟨q.takeWhile fun x => x != Char.ofNat 10⟩ := by
    rw [jsSplit_of_ne _ _ (by decide)]
    show (List.map String.mk (splitChars [Char.ofNat 10] 0 q))[0]? = _
    rw [hlines]
    simp
  simp [h2]

/-- The human branch, spelled out. -/
theorem MessageBubble_human (message : Message) (index : Nat) (hrole : message.role = "human") :
    MessageBubble message index =
      if jsIncludes message.content taskMarker then
        (taskText message.content).bind fun task =>
          (if jsIncludes message.content actionsMarker then
              (actionsText message.content).map some else some none).bind fun actions =>
            some (.human
              { initial := jsIncludes message.content "Interact with a household"
                body := .formatted (narrationBlock message.content) (some task) actions })
      else
        some (.human
          { initial := jsIncludes message.content "Interact with a household"
            body := .plain message.content }) := by
  have hAgent : (message.role == "agent") = false := by rw [hrole]; decide
  have hHuman : (message.role == "human") = true := by rw [hrole]; decide
  unfold MessageBubble
  simp only [hAgent, hHuman, Bool.false_eq_true, if_false, if_true]
  by_cases hT : jsIncludes message.content taskMarker = true
  · simp only [hT, if_true]
    by_cases hA : jsIncludes message.content actionsMarker = true
    · simp only [hA, if_true]
      cases taskText message.content <;> cases actionsText message.content <;> rfl
    · simp only [hA, if_false]
      cases taskText message.content <;> rfl
  · simp only [hT, if_false]
    rfl

/-- C7, as stated, fails: when the marker occurs a second time on the line that
follows it, the TASK block stops at that second occurrence, while the first line
following the marker goes on to the line feed. -/
theorem taskBlock_stops_at_second_marker :
    MessageBubble
        { role := "human"
          content := "Room.\nYour task is to: heat egg. Your task is to: cool it\nmore"
          thought := none
          action := none } 0
      = some (.human
          { initial := false
            body := .formatted (some "Room.") (some "heat egg.") none })
    ∧ jsTrim (firstLine " heat egg. Your task is to: cool it\nmore")
      = "heat egg. Your task is to: cool it" := by
  decide

/-- The first piece of `mid ++ tail` is `mid` when the task marker does not
occur in `mid` and `tail` is empty or starts with the marker. -/
theorem jsSplit_task_head (mid tail : String)
    (hmid : jsIncludes mid taskMarker = false)
    (htail : tail = "" ∨ ∃ rest, tail = taskMarker ++ rest) :
    jsSplit (mid ++ tail) taskMarker = [mid]
      ∨ ∃ pieces, jsSplit (mid ++ tail) taskMarker = mid :: pieces := by
  rcases htail with rfl | ⟨rest, rfl⟩
  · left
    rw [String.append_empty, jsSplit_of_ne _ _ taskMarker_data_ne,
      splitChars_of_not_includes _ _ hmid]
    rfl
  · right
    rw [← String.append_assoc, jsSplit_first _ _ _ taskMarker_data_ne taskMarker_last hmid]
    exact ⟨_, rfl⟩

theorem jsSplit_task_head_eq (mid tail : String)
    (hmid : jsIncludes mid taskMarker = false)
    (htail : tail = "" ∨ ∃ rest, tail = taskMarker ++ rest) :
    ∃ pieces, jsSplit (mid ++ tail) taskMarker = mid :: pieces := by
  rcases jsSplit_task_head mid tail hmid htail with h | h
  · exact ⟨[], h⟩
  · exact h

theorem jsSplit_newline_head (s : String) :
    (jsSplit s newline)[0]? = some (firstLine s) := by
  obtain ⟨lines, hlines⟩ := splitChars_single (Char.ofNat 10) s.data
  rw [jsSplit_of_ne _ _ (by decide)]
  show (List.map String.mk (splitChars [Char.ofNat 10] 0 s.data))[0]? = _
  rw [hlines]
  simp [firstLine]

/-- The TASK text is the first line of the text between the first occurrence
of the marker and the next one. -/
theorem taskText_between (pre mid tail : String)
    (hpre : jsIncludes pre taskMarker = false)
    (hmid : jsIncludes mid taskMarker = false)
    (htail : tail = "" ∨ ∃ rest, tail = taskMarker ++ rest) :
    taskText (pre ++ taskMarker ++ (mid ++ tail)) = some (jsTrim (firstLine mid)) := by
  obtain ⟨pieces, hpieces⟩ := jsSplit_task_head_eq mid tail hmid htail
  unfold taskText
  rw [jsSplit_first _ _ _ taskMarker_data_ne taskMarker_last hpre, hpieces,
    List.getElem?_cons_succ, List.getElem?_cons_zero]
  simp only [Option.bind_eq_bind, Option.some_bind, jsSplit_newline_head]
  rfl

theorem takeWhile_append_of_exists_neg {p : Char → Bool} :
    ∀ (l₁ l₂ : List Char), (∃ x ∈ l₁, p x = false) →
      (l₁ ++ l₂).takeWhile p = l₁.takeWhile p
  | [], _, h => by simp at h
  | a :: l, l₂, h => by
    by_cases ha : p a = true
    · have hl : ∃ x ∈ l, p x = false := by
        obtain ⟨x, hx, hpx⟩ := h
        rcases List.mem_cons.1 hx with rfl | hx
        · rw [ha] at hpx; cases hpx
        · exact ⟨x, hx, hpx⟩
      simp [List.takeWhile_cons, ha, takeWhile_append_of_exists_neg l l₂ hl]
    · simp [List.takeWhile_cons, ha]

/-- When the marker does not occur again on the first line of what follows
it, that first line lies wholly before the next occurrence. -/
theorem firstLine_of_no_marker (mid tail : String)
    (htail : tail = "" ∨ ∃ rest, tail = taskMarker ++ rest)
    (hline : jsIncludes (firstLine (mid ++ tail)) taskMarker = false) :
    firstLine mid = firstLine (mid ++ tail) := by
  rcases htail with rfl | ⟨rest, rfl⟩
  · rw [String.append_empty]
  · by_cases hall : ∀ x ∈ mid.data, (x != Char.ofNat 10) = true
    · exfalso
      rw [jsIncludes_eq_false_iff] at hline
      apply hline
      show taskMarker.data <:+: List.takeWhile _ (mid ++ (taskMarker ++ rest)).data
      rw [String.data_append, String.data_append, List.takeWhile_append_of_pos hall,
        List.takeWhile_append_of_pos (by simpa using taskMarker_no_newline)]
      exact List.infix_append' _ _ _
    · have hex : ∃ x ∈ mid.data, (x != Char.ofNat 10) = false := by
        simpa using hall
      show (⟨_⟩ : String) = ⟨_⟩
      rw [String.data_append, takeWhile_append_of_exists_neg _ _ hex]

/-- When the marker occurs again on the first line of what follows it, the
text before that second occurrence has no line feed: it is its own first
line. -/
theorem firstLine_of_marker_again (mid tail : String)
    (hmid : jsIncludes mid taskMarker = false)
    (htail : tail = "" ∨ ∃ rest, tail = taskMarker ++ rest)
    (hline : jsIncludes (firstLine (mid ++ tail)) taskMarker = true) :
    firstLine mid = mid ∧ ∃ rest, tail = taskMarker ++ rest := by
  have hinfix : taskMarker.data <:+: (mid ++ tail).data.takeWhile (fun c => c != Char.ofNat 10) :=
    includesChars_iff_infix _ _ |>.1 hline
  have hnot : ¬ taskMarker.data <:+: mid.data := (jsIncludes_eq_false_iff _ _).1 hmid
  by_cases hall : ∀ x ∈ mid.data, (x != Char.ofNat 10) = true
  · have hfirst : firstLine mid = mid := by
      show (⟨_⟩ : String) = mid
      rw [List.takeWhile_eq_self_iff.2 hall]
    refine ⟨hfirst, ?_⟩
    rcases htail with rfl | h
    · exfalso
      rw [String.append_empty, List.takeWhile_eq_self_iff.2 hall] at hinfix
      exact hnot hinfix
    · exact h
  · exfalso
    have hex : ∃ x ∈ mid.data, (x != Char.ofNat 10) = false := by
      simpa using hall
    rw [String.data_append, takeWhile_append_of_exists_neg _ _ hex] at hinfix
    exact hnot <| List.IsInfix.trans hinfix (List.takeWhile_prefix _).isInfix

/-- A text in which a non-empty separator occurs splits at the first
occurrence: the part before it does not contain the separator. -/
theorem exists_first_occurrence (sep : List Char) (hsep : sep ≠ []) :
    ∀ cs : List Char, sep <:+: cs →
      ∃ pre post, cs = pre ++ sep ++ post ∧ ¬ sep <:+: pre
  | [], h => by
    exact absurd (List.eq_nil_of_infix_nil h) hsep
  | c :: cs, h => by
    by_cases hp : sep <+: c :: cs
    · obtain ⟨post, hpost⟩ := hp
      exact ⟨[], post, by simpa using hpost.symm,
        fun hnil => hsep (List.eq_nil_of_infix_nil hnil)⟩
    · have hcs : sep <:+: cs := (List.infix_cons_iff.1 h).resolve_left hp
      obtain ⟨pre, post, hsplit, hpre⟩ := exists_first_occurrence sep hsep cs hcs
      refine ⟨c :: pre, post, by simp [hsplit], ?_⟩
      intro hin
      rcases List.infix_cons_iff.1 hin with h1 | h1
      · apply hp
        rw [hsplit]
        exact List.IsPrefix.trans h1 ⟨sep ++ post, by simp⟩
      · exact hpre h1

/-- Every text that contains the task marker is some `pre`, the marker, `mid`
and `tail` with no marker in `pre` or `mid` and `tail` empty or starting with
the marker. -/
theorem exists_task_split (content : String) (h : jsIncludes content taskMarker = true) :
    ∃ pre mid tail : String, content = pre ++ taskMarker ++ (mid ++ tail)
      ∧ jsIncludes pre taskMarker = false ∧ jsIncludes mid taskMarker = false
      ∧ (tail = "" ∨ ∃ rest, tail = taskMarker ++ rest) := by
  obtain ⟨pre, post, hsplit, hpre⟩ :=
    exists_first_occurrence taskMarker.data taskMarker_data_ne content.data
      ( includesChars_iff_infix _ _ |>.1 h)
  have hcontent : content = (⟨pre⟩ : String) ++ taskMarker ++ ⟨post⟩ := by
    apply String.ext
    simp [hsplit]
  by_cases hpost : taskMarker.data <:+: post
  · obtain ⟨mid, rest, hsplit2, hmid⟩ :=
      exists_first_occurrence taskMarker.data taskMarker_data_ne post hpost
    refine ⟨⟨pre⟩, ⟨mid⟩, taskMarker ++ ⟨rest⟩, ?_, (jsIncludes_eq_false_iff _ _).2 hpre,
      (jsIncludes_eq_false_iff _ _).2 hmid, Or.inr ⟨_, rfl⟩⟩
    rw [hcontent]
    congr 1
    apply String.ext
    simp [hsplit2]
  · refine ⟨⟨pre⟩, ⟨post⟩, "", ?_, (jsIncludes_eq_false_iff _ _).2 hpre,
      (jsIncludes_eq_false_iff _ _).2 hpost, Or.inl rfl⟩
    rw [hcontent, String.append_empty]

/-- C7, amended: for a human-role message whose content is `pre`, the marker
`Your task is to:`, `mid` and `tail`, where the marker occurs neither in `pre`
nor in `mid` and `tail` is empty or starts with the marker (every content that
contains the marker splits so: `pre` precedes its first occurrence and `mid`
runs to its next occurrence or to the end), the formatted layout is rendered,
the narration is `pre` trimmed (no narration block when `pre` is empty) and the
TASK block is the first line of `mid` trimmed.  When the marker does not occur
again on the first line that follows it, that is the whole first line following
the marker; when it does, `mid` is one line and the TASK block is `mid` trimmed:
it stops at the second occurrence.  For the content `You are in a room.`, line
feed, `Your task is to: clean the mug`, line feed,
`AVAILABLE ACTIONS: go, take, clean` the narration is `You are in a room.`, the
task `clean the mug` and the actions `go, take, clean`. -/
theorem humanTask_layout (message : Message) (index : Nat) (pre mid tail : String)
    (hrole : message.role = "human")
    (hcontent : message.content = pre ++ taskMarker ++ (mid ++ tail))
    (hpre : jsIncludes pre taskMarker = false)
    (hmid : jsIncludes mid taskMarker = false)
    (htail : tail = "" ∨ ∃ rest, tail = taskMarker ++ rest) :
    (∃ actions, MessageBubble message index
        = some (.human
            { initial := jsIncludes message.content "Interact with a household"
              body := .formatted (if pre = "" then none else some (jsTrim pre))
                (some (jsTrim (firstLine mid))) actions }))
      ∧ (jsIncludes (firstLine (mid ++ tail)) taskMarker = false →
          firstLine mid = firstLine (mid ++ tail))
      ∧ (jsIncludes (firstLine (mid ++ tail)) taskMarker = true →
          firstLine mid = mid ∧ ∃ rest, tail = taskMarker ++ rest)
      ∧ (∀ content : String, jsIncludes content taskMarker = true →
          ∃ p m t : String, content = p ++ taskMarker ++ (m ++ t)
            ∧ jsIncludes p taskMarker = false ∧ jsIncludes m taskMarker = false
            ∧ (t = "" ∨ ∃ rest, t = taskMarker ++ rest))
      ∧ MessageBubble
          { message with
            content :=
              "You are in a room.\nYour task is to: clean the mug\nAVAILABLE ACTIONS: go, take, clean" }
          index
        = some (.human
            { initial := false
              body := .formatted (some "You are in a room.") (some "clean the mug")
                (some "go, take, clean") }) := by
  refine ⟨?_, firstLine_of_no_marker mid tail htail, firstLine_of_marker_again mid tail hmid htail,
    exists_task_split, ?_⟩
  · rw [MessageBubble_human _ _ hrole, hcontent, if_pos (jsIncludes_append _ _ _),
      taskText_between _ _ _ hpre hmid htail, narrationBlock_first _ _ hpre]
    by_cases hA : jsIncludes (pre ++ taskMarker ++ (mid ++ tail)) actionsMarker = true
    · obtain ⟨a, ha⟩ := actionsText_isSome _ hA
      exact ⟨some a, by simp [hA, ha]⟩
    · exact ⟨none, by simp [hA]⟩
  · have h := MessageBubble_human
      { message with
        content :=
          "You are in a room.\nYour task is to: clean the mug\nAVAILABLE ACTIONS: go, take, clean" }
      index hrole
    rw [h]
    dsimp only
    decide

/-- Witness of C7: the message of the specification, and a message with the
marker twice on one line, whose TASK block stops at the second occurrence. -/
theorem humanTask_layout_witness :
    (∃ actions, MessageBubble
        { role := "human"
          content :=
            "You are in a room.\nYour task is to: clean the mug\nAVAILABLE ACTIONS: go, take, clean"
          thought := none
          action := none } 0
      = some (.human
          { initial := false
            body := .formatted (some "You are in a room.") (some "clean the mug") actions }))
    ∧ ∃ actions, MessageBubble
        { role := "human"
          content := "Go.\nYour task is to: find a pen. Your task is to: stop\nend"
          thought := none
          action := none } 0
      = some (.human
          { initial := false
            body := .formatted (some "Go.") (some "find a pen.") actions }) :=
  ⟨(humanTask_layout
      { role := "human"
        content :=
          "You are in a room.\nYour task is to: clean the mug\nAVAILABLE ACTIONS: go, take, clean"
        thought := none
        action := none } 0
      "You are in a room.\n" " clean the mug\nAVAILABLE ACTIONS: go, take, clean" ""
      rfl (by decide) (by decide) (by decide) (Or.inl rfl)).1,
   (humanTask_layout
      { role := "human"
        content := "Go.\nYour task is to: find a pen. Your task is to: stop\nend"
        thought := none
        action := none } 0
      "Go.\n" " find a pen. " "Your task is to: stop\nend"
      rfl (by decide) (by decide) (by decide) (Or.inr ⟨" stop\nend", rfl⟩)).1⟩

theorem jsSplit_actions_head (mid tail : String)
    (hmid : jsIncludes mid actionsMarker = false)
    (htail : tail = "" ∨ ∃ rest, tail = actionsMarker ++ rest) :
    (jsSplit (mid ++ tail) actionsMarker)[0]? = some mid := by
  rcases htail with rfl | ⟨rest, rfl⟩
  · rw [String.append_empty, jsSplit_of_ne _ _ actionsMarker_data_ne,
      splitChars_of_not_includes _ _ hmid]
    rfl
  · rw [← String.append_assoc, jsSplit_first _ _ _ actionsMarker_data_ne actionsMarker_last hmid]
    simp

theorem actionsText_first (pre mid tail : String)
    (hpre : jsIncludes pre actionsMarker = false)
    (hmid : jsIncludes mid actionsMarker = false)
    (htail : tail = "" ∨ ∃ rest, tail = actionsMarker ++ rest) :
    actionsText (pre ++ actionsMarker ++ mid ++ tail) = some (jsTrim mid) := by
  unfold actionsText
  rw [String.append_assoc (pre ++ actionsMarker) mid tail,
    jsSplit_first _ _ _ actionsMarker_data_ne actionsMarker_last hpre]
  have h := jsSplit_actions_head mid tail hmid htail
  rw [List.getElem?_cons_succ, h]
  rfl

/-- C8, as stated, fails: a human message that contains `AVAILABLE ACTIONS:` but
not `Your task is to:` is rendered as plain text, with no ACTIONS block. -/
theorem actions_without_task_is_plain :
    jsIncludes "You see a mug.\nAVAILABLE ACTIONS: go, take" actionsMarker = true
      ∧ MessageBubble
          { role := "human"
            content := "You see a mug.\nAVAILABLE ACTIONS: go, take"
            thought := none
            action := none } 0
        = some (.human
            { initial := false
              body := .plain "You see a mug.\nAVAILABLE ACTIONS: go, take" }) := by
  decide

/-- C8, amended: a human-role message whose content does not contain
`Your task is to:` is rendered verbatim as plain narration, whether or not it
contains `AVAILABLE ACTIONS:`; one whose content contains `Your task is to:` and
is `pre`, the marker `AVAILABLE ACTIONS:`, `mid` and `tail`, with no occurrence
of that marker in `pre` or `mid` and `tail` empty or starting with the marker,
gets the formatted layout whose ACTIONS block is `mid` trimmed: the text
following the first `AVAILABLE ACTIONS:` up to its next occurrence, if any. -/
theorem humanActions_layout (message : Message) (index : Nat) (pre mid tail : String)
    (hrole : message.role = "human") :
    (jsIncludes message.content taskMarker = false →
        MessageBubble message index
          = some (.human
              { initial := jsIncludes message.content "Interact with a household"
                body := .plain message.content }))
      ∧ (jsIncludes message.content taskMarker = true →
          message.content = pre ++ actionsMarker ++ mid ++ tail →
          jsIncludes pre actionsMarker = false →
          jsIncludes mid actionsMarker = false →
          (tail = "" ∨ ∃ rest, tail = actionsMarker ++ rest) →
          ∃ narration task, MessageBubble message index
            = some (.human
                { initial := jsIncludes message.content "Interact with a household"
                  body := .formatted narration (some task) (some (jsTrim mid)) })) := by
  constructor
  · intro hT
    rw [MessageBubble_human _ _ hrole, hT]
    rfl
  · intro hT hcontent hpre hmid htail
    obtain ⟨task, htask⟩ := taskText_isSome _ hT
    have hA : jsIncludes message.content actionsMarker = true := by
      rw [hcontent, String.append_assoc (pre ++ actionsMarker) mid tail]
      exact jsIncludes_append _ _ _
    have hact := actionsText_first pre mid tail hpre hmid htail
    rw [← hcontent] at hact
    refine ⟨narrationBlock message.content, task, ?_⟩
    rw [MessageBubble_human _ _ hrole, hT, htask, hA, hact]
    rfl

/-- Witness of C8 at the message of the specification and at a message with
the actions marker only. -/
theorem humanActions_layout_witness :
    MessageBubble
        { role := "human"
          content := "You see a mug.\nAVAILABLE ACTIONS: go, take"
          thought := none
          action := none } 0
      = some (.human
          { initial := false
            body := .plain "You see a mug.\nAVAILABLE ACTIONS: go, take" })
    ∧ ∃ narration task, MessageBubble
        { role := "human"
          content :=
            "You are in a room.\nYour task is to: clean the mug\nAVAILABLE ACTIONS: go, take, clean"
          thought := none
          action := none } 0
      = some (.human
          { initial := false
            body := .formatted narration (some task) (some "go, take, clean") }) :=
  ⟨(humanActions_layout
      { role := "human"
        content := "You see a mug.\nAVAILABLE ACTIONS: go, take"
        thought := none
        action := none } 0 "" "" "" rfl).1 (by decide),
   (humanActions_layout
      { role := "human"
        content :=
          "You are in a room.\nYour task is to: clean the mug\nAVAILABLE ACTIONS: go, take, clean"
        thought := none
        action := none } 0
      "You are in a room.\nYour task is to: clean the mug\n" " go, take, clean" "" rfl).2
      (by decide) (by decide) (by decide) (by decide) (Or.inl rfl)⟩

/-- The agent branch, spelled out. -/
theorem MessageBubble_agent (message : Message) (index : Nat) (hrole : message.role = "agent") :
    MessageBubble message index = some (.agent
      { stepLabel := index / 2 + 1
        thought := blockIfTruthy message.thought
        action := blockIfTruthy message.action
        content :=
          if !(JSValue.ofOption message.thought).truthy
              && !(JSValue.ofOption message.action).truthy then
            some message.content
          else none }) := by
  have hAgent : (message.role == "agent") = true := by rw [hrole]; decide
  unfold MessageBubble
  simp only [hAgent, if_true]

theorem blockIfTruthy_none : blockIfTruthy none = none := rfl

theorem blockIfTruthy_some (s : String) :
    blockIfTruthy (some s) = if s = "" then none else some s := by
  by_cases hs : s = "" <;> simp [blockIfTruthy, JSValue.ofOption, JSValue.truthy, hs]

theorem ofOption_truthy_none : (JSValue.ofOption none).truthy = false := rfl

theorem ofOption_truthy_some (s : String) :
    (JSValue.ofOption (some s)).truthy = !(s == "") := by
  simp [JSValue.ofOption, JSValue.truthy, bne]

/-- C9: for an agent-role message the THOUGHT block is rendered exactly when
`thought` is present and non-empty (and shows it), the ACTION block exactly when
`action` is present and non-empty (and shows it), and the raw content exactly
when neither of the two is (so exactly when neither block is rendered).  Hence
with both set both blocks and no content render, with only `thought` set only
the THOUGHT block renders, and with neither set only the content renders. -/
theorem agent_blocks (message : Message) (index : Nat) (hrole : message.role = "agent") :
    ∃ b : AgentBubble, MessageBubble message index = some (.agent b)
      ∧ (∀ t, b.thought = some t ↔ message.thought = some t ∧ t ≠ "")
      ∧ (∀ a, b.action = some a ↔ message.action = some a ∧ a ≠ "")
      ∧ (∀ c, b.content = some c ↔
          c = message.content ∧ ¬ (∃ t, message.thought = some t ∧ t ≠ "")
            ∧ ¬ (∃ a, message.action = some a ∧ a ≠ ""))
      ∧ (b.content.isSome = true ↔ b.thought = none ∧ b.action = none)
      ∧ (∀ t a, message.thought = some t → t ≠ "" → message.action = some a → a ≠ "" →
          b.thought = some t ∧ b.action = some a ∧ b.content = none)
      ∧ (∀ t, message.thought = some t → t ≠ "" → message.action = none →
          b.thought = some t ∧ b.action = none ∧ b.content = none)
      ∧ (message.thought = none → message.action = none →
          b.thought = none ∧ b.action = none ∧ b.content = some message.content) := by
  refine ⟨_, MessageBubble_agent message index hrole, ?_⟩
  obtain ⟨role, content, thought, action⟩ := message
  dsimp only
  rcases thought with _ | t <;> rcases action with _ | a
  · simp [blockIfTruthy_none, ofOption_truthy_none]
    exact fun _ => eq_comm
  · by_cases ha : a = "" <;>
      (simp [blockIfTruthy_none, blockIfTruthy_some, ofOption_truthy_none,
        ofOption_truthy_some, ha]
       try exact fun _ => eq_comm)
  · by_cases ht : t = "" <;>
      (simp [blockIfTruthy_none, blockIfTruthy_some, ofOption_truthy_none,
        ofOption_truthy_some, ht]
       try exact fun _ => eq_comm)
  · by_cases ht : t = "" <;> by_cases ha : a = "" <;>
      (simp [blockIfTruthy_none, blockIfTruthy_some, ofOption_truthy_none,
        ofOption_truthy_some, ht, ha]
       try exact fun _ => eq_comm)

/-- Witness of C9: an agent message with a thought and no action. -/
theorem agent_blocks_witness :
    ∃ b : AgentBubble,
      MessageBubble { role := "agent", content := "go", thought := some "look", action := none } 3
        = some (.agent b)
      ∧ b.thought = some "look" ∧ b.action = none ∧ b.content = none := by
  obtain ⟨b, hb, _, _, _, _, _, h, _⟩ :=
    agent_blocks { role := "agent", content := "go", thought := some "look", action := none } 3 rfl
  exact ⟨b, hb, h "look" rfl (by decide) rfl⟩

/-! ## Properties of the numeric filter inputs -/

theorem isDigit_iff (c : Char) : c.isDigit = true ↔ 48 ≤ c.toNat ∧ c.toNat ≤ 57 := by
  simp only [Char.isDigit, Char.toNat, UInt32.le_def, BitVec.le_def, ge_iff_le,
    Bool.and_eq_true, decide_eq_true_eq]
  exact Iff.rfl

theorem isStrWhiteSpaceChar_digit (c : Char) (h : c.isDigit = true) :
    isStrWhiteSpaceChar c = false := by
  rw [isDigit_iff] at h
  simp only [isStrWhiteSpaceChar, Bool.or_eq_false_iff, beq_eq_false_iff_ne, ne_eq,
    Bool.and_eq_false_iff, decide_eq_false_iff_not]
  omega

theorem digitValue_digit (c : Char) (h : c.isDigit = true) :
    digitValue c = some (c.toNat - 48) := by
  rw [isDigit_iff] at h
  simp [digitValue, h]

theorem isRadixDigit_digit (c : Char) (h : c.isDigit = true) : isRadixDigit 10 c = true := by
  rw [isRadixDigit, digitValue_digit c h]
  rw [isDigit_iff] at h
  simp
  omega

theorem isRadixDigit_not_digit (c : Char) (h : c.isDigit = false) :
    isRadixDigit 10 c = false := by
  have h' : ¬ (48 ≤ c.toNat ∧ c.toNat ≤ 57) := by
    rw [← isDigit_iff, h]
    simp
  unfold isRadixDigit digitValue
  simp only [h', if_false]
  split_ifs <;> simp <;> omega

theorem foldl_digitValue (ds : List Char) (hd : ∀ c ∈ ds, c.isDigit = true) :
    ∀ a : Nat, ds.foldl (fun acc c => acc * 10 + (digitValue c).getD 0) a
      = ds.foldl (fun acc c => acc * 10 + (c.toNat - 48)) a := by
  induction ds with
  | nil => intro a; rfl
  | cons d ds ih =>
    intro a
    simp only [List.foldl_cons, digitValue_digit d (hd d (List.mem_cons_self _ _)),
      Option.getD_some]
    exact ih (fun c hc => hd c (List.mem_cons_of_mem _ hc)) _

theorem takeWhile_digits (ds : List Char) (hd : ∀ c ∈ ds, c.isDigit = true) :
    ds.takeWhile (isRadixDigit 10) = ds := by
  rw [List.takeWhile_eq_self_iff]
  exact fun c hc => isRadixDigit_digit c (hd c hc)

theorem stripSign_of_not_sign (c : Char) (rest : List Char)
    (hminus : c ≠ Char.ofNat 45) (hplus : c ≠ Char.ofNat 43) :
    stripSign (c :: rest) = (false, c :: rest) := by
  unfold stripSign
  split
  · rename_i h
    exact absurd (List.cons.inj h).1 hminus
  · rename_i h
    exact absurd (List.cons.inj h).1 hplus
  · rfl

theorem stripRadix_digits (ds : List Char) (hd : ∀ c ∈ ds, c.isDigit = true) :
    stripRadix ds = (10, ds) := by
  unfold stripRadix
  split
  · exact absurd (hd (Char.ofNat 120) (by simp)) (by decide)
  · exact absurd (hd (Char.ofNat 88) (by simp)) (by decide)
  · rfl

theorem stripRadix_of_not_zero (c : Char) (rest : List Char) (h0 : c ≠ Char.ofNat 48) :
    stripRadix (c :: rest) = (10, c :: rest) := by
  unfold stripRadix
  split
  · rename_i h
    exact absurd (List.cons.inj h).1 h0
  · rename_i h
    exact absurd (List.cons.inj h).1 h0
  · rfl

theorem parseDigits_digits (negative : Bool) (ds : List Char) (hne : ds ≠ [])
    (hd : ∀ c ∈ ds, c.isDigit = true) :
    parseDigits negative 10 ds = toNumber negative (decimalValue ds) := by
  unfold parseDigits
  simp only [takeWhile_digits ds hd, foldl_digitValue ds hd]
  rw [if_neg (by simpa using hne)]
  rfl

theorem parseDigits_not_digit (negative : Bool) (c : Char) (rest : List Char)
    (hc : c.isDigit = false) : parseDigits negative 10 (c :: rest) = .nan := by
  unfold parseDigits
  simp [isRadixDigit_not_digit c hc]

/-- On an optional minus sign followed by a non-empty run of decimal digits
`parseInt` answers the Number of the signed value. -/
theorem parseInt_digits (negative : Bool) (ds : List Char) (hne : ds ≠ [])
    (hd : ∀ c ∈ ds, c.isDigit = true) :
    parseInt ⟨(if negative then [Char.ofNat 45] else []) ++ ds⟩
      = toNumber negative (decimalValue ds) := by
  obtain ⟨d, rest, rfl⟩ := List.exists_cons_of_ne_nil hne
  have hd0 := hd d (List.mem_cons_self _ _)
  unfold parseInt
  cases negative with
  | true =>
    have h1 : List.dropWhile isStrWhiteSpaceChar (Char.ofNat 45 :: d :: rest)
        = Char.ofNat 45 :: d :: rest := by
      rw [List.dropWhile_cons_of_neg (by decide)]
    have h2 : stripSign (Char.ofNat 45 :: d :: rest) = (true, d :: rest) := rfl
    simp only [if_true, List.singleton_append, h1, h2, stripRadix_digits _ hd,
      parseDigits_digits true _ hne hd]
  | false =>
    have h1 : List.dropWhile isStrWhiteSpaceChar (d :: rest) = d :: rest := by
      rw [List.dropWhile_cons_of_neg (by simp [isStrWhiteSpaceChar_digit d hd0])]
    have h2 : stripSign (d :: rest) = (false, d :: rest) :=
      stripSign_of_not_sign d rest (by rintro rfl; exact absurd hd0 (by decide))
        (by rintro rfl; exact absurd hd0 (by decide))
    simp only [Bool.false_eq_true, if_false, List.nil_append, h1, h2, stripRadix_digits _ hd,
      parseDigits_digits false _ hne hd]

/-- On a text whose first character is neither white space, a sign nor a
decimal digit `parseInt` answers `NaN`. -/
theorem parseInt_nan (c : Char) (rest : List Char) (hws : isStrWhiteSpaceChar c = false)
    (hminus : c ≠ Char.ofNat 45) (hplus : c ≠ Char.ofNat 43) (hc : c.isDigit = false) :
    parseInt ⟨c :: rest⟩ = .nan := by
  unfold parseInt
  have h1 : List.dropWhile isStrWhiteSpaceChar (c :: rest) = c :: rest := by
    rw [List.dropWhile_cons_of_neg (by simp [hws])]
  have h0 : c ≠ Char.ofNat 48 := by
    rintro rfl
    exact absurd hc (by decide)
  simp only [h1, stripSign_of_not_sign c rest hminus hplus, stripRadix_of_not_zero c rest h0,
    parseDigits_not_digit false c rest hc]

theorem roundToDouble_small (n : Nat) (h : n < 2 ^ 53) : roundToDouble n = some n := by
  unfold roundToDouble
  rw [if_pos h]

theorem toNumber_small (negative : Bool) (n : Nat) (h : n < 2 ^ 53) :
    toNumber negative n = .int (if negative then -(n : Int) else n) := by
  unfold toNumber
  rw [roundToDouble_small n h]

/-- C10, as stated, fails: for the non-numeric input `abc`, and for `.5`, which a
number input accepts, the handler passes `NaN`, not `null`, and `setFilter`
stores it. -/
theorem numericInput_stores_NaN :
    numericValue "abc" = .number .nan
      ∧ numericValue ".5" = .number .nan
      ∧ (onNumericChange .minSteps "abc" (initialStore : Store Unit Unit Unit)).filters.minSteps
          = .number .nan
      ∧ JSValue.number .nan ≠ JSValue.null := by
  decide

/-- C10, amended: the value a numeric input passes to `setFilter` is `null` for
the empty string and `parseInt` of the text otherwise.  For an optional minus
sign followed by decimal digits it is the Number of that integer (the integer
itself below `2 ^ 53`; `0` for the text `0`); for a text whose first character
is neither white space, a sign nor a digit it is `NaN`, not `null`.  The value
is stored in the filter as it is, and a stored `NaN` adds no query parameter. -/
theorem numericInput_value (value : String) (negative : Bool) (digits : List Char) (c : Char)
    (rest : List Char) (hne : digits ≠ []) (hdigits : ∀ d ∈ digits, d.isDigit = true)
    (hws : isStrWhiteSpaceChar c = false) (hminus : c ≠ Char.ofNat 45)
    (hplus : c ≠ Char.ofNat 43) (hc : c.isDigit = false) :
    numericValue "" = .null
      ∧ (value ≠ "" → numericValue value = .number (parseInt value))
      ∧ numericValue ⟨(if negative then [Char.ofNat 45] else []) ++ digits⟩
          = .number (toNumber negative (decimalValue digits))
      ∧ (decimalValue digits < 2 ^ 53 →
          numericValue ⟨(if negative then [Char.ofNat 45] else []) ++ digits⟩
            = .number (.int (if negative then -(decimalValue digits : Int)
                else decimalValue digits)))
      ∧ numericValue "0" = .number (.int 0)
      ∧ numericValue ⟨c :: rest⟩ = .number .nan
      ∧ (∀ (key : FilterKey) (state : Store Unit Unit Unit),
          (onNumericChange key value state).filters.get key = numericValue value)
      ∧ (∀ name : String, spreadIfTruthy name (.number .nan) = []) := by
  have hvalue : ∀ v : String, v ≠ "" → numericValue v = .number (parseInt v) := by
    intro v hv
    unfold numericValue
    rw [if_pos (by simpa [JSValue.truthy] using hv)]
  have hsigned : (⟨(if negative then [Char.ofNat 45] else []) ++ digits⟩ : String) ≠ "" := by
    intro h
    have := congrArg String.data h
    cases negative <;> simp at this
    exact hne this
  have hint := parseInt_digits negative digits hne hdigits
  refine ⟨by decide, hvalue value, ?_, ?_, by decide, ?_, ?_, fun _ => rfl⟩
  · rw [hvalue _ hsigned, hint]
  · intro hlt
    rw [hvalue _ hsigned, hint, toNumber_small negative _ hlt]
  · rw [hvalue _ (by intro h; exact absurd (congrArg String.data h) (by simp)),
      parseInt_nan c rest hws hminus hplus hc]
  · intro key state
    cases key <;> rfl

/-- Witness of C10: the texts `-42` and `abc`. -/
theorem numericInput_value_witness :
    numericValue "-42" = .number (.int (-42)) ∧ numericValue "abc" = .number .nan :=
  have h := numericInput_value "7" true [Char.ofNat 52, Char.ofNat 50] (Char.ofNat 97)
    [Char.ofNat 98, Char.ofNat 99] (by decide) (by decide) (by decide) (by decide)
    (by decide) (by decide)
  ⟨(h.2.2.2.1 (by decide)), h.2.2.2.2.2.1⟩

/-! ## Properties of runs of the store -/

/-- One state change keeps the limit at 50 and the skip a non-negative multiple
of 50, and raises the skip by at most 50. -/
theorem apply_pagination {T D S : Type} (action : Action T D S) (state : Store T D S)
    (bound : Int) (hlimit : state.pagination.limit = 50) (hnonneg : 0 ≤ state.pagination.skip)
    (hdvd : (50 : Int) ∣ state.pagination.skip) (hbound : state.pagination.skip ≤ bound) :
    (action.apply state).pagination.limit = 50
      ∧ 0 ≤ (action.apply state).pagination.skip
      ∧ (50 : Int) ∣ (action.apply state).pagination.skip
      ∧ (action.apply state).pagination.skip ≤ bound + 50 := by
  have keep : ∀ next : Store T D S, next.pagination = state.pagination →
      next.pagination.limit = 50 ∧ 0 ≤ next.pagination.skip
        ∧ (50 : Int) ∣ next.pagination.skip ∧ next.pagination.skip ≤ bound + 50 := by
    intro next h
    rw [h]
    exact ⟨hlimit, hnonneg, hdvd, by omega⟩
  cases action with
  | fetchTrajectoriesStart => exact keep _ rfl
  | fetchTrajectoriesSettle outcome => exact keep _ (by cases outcome <;> rfl)
  | fetchTrajectoryDetailStart => exact keep _ rfl
  | fetchTrajectoryDetailSettle outcome => exact keep _ (by cases outcome <;> rfl)
  | fetchStatisticsSettle outcome => exact keep _ (by cases outcome <;> rfl)
  | setCurrentTrajectory trajectory => exact keep _ rfl
  | setFilter key value =>
    simp only [Action.apply, setFilter]
    exact ⟨hlimit, le_refl _, dvd_zero _, by omega⟩
  | clearFilters =>
    simp only [Action.apply, clearFilters]
    exact ⟨trivial, le_refl _, dvd_zero _, by omega⟩
  | nextPage =>
    simp only [Action.apply, nextPage, hlimit]
    exact ⟨trivial, by omega, by omega, by omega⟩
  | prevPage =>
    simp only [Action.apply, prevPage, hlimit]
    refine ⟨trivial, le_max_left _ _, ?_, ?_⟩
    · rcases le_total 0 (state.pagination.skip - 50) with h | h
      · rw [max_eq_right h]; omega
      · rw [max_eq_left h]; exact dvd_zero _
    · rcases le_total 0 (state.pagination.skip - 50) with h | h
      · rw [max_eq_right h]; omega
      · rw [max_eq_left h]; omega

/-- The pagination invariant along a run from any state that satisfies it. -/
theorem run_pagination {T D S : Type} (actions : List (Action T D S)) :
    ∀ (state : Store T D S) (bound : Int), state.pagination.limit = 50 →
      0 ≤ state.pagination.skip → (50 : Int) ∣ state.pagination.skip →
      state.pagination.skip ≤ bound →
      (run actions state).pagination.limit = 50
        ∧ 0 ≤ (run actions state).pagination.skip
        ∧ (50 : Int) ∣ (run actions state).pagination.skip
        ∧ (run actions state).pagination.skip ≤ bound + 50 * actions.length := by
  induction actions with
  | nil =>
    intro state bound hlimit hnonneg hdvd hbound
    exact ⟨hlimit, hnonneg, hdvd, by simpa [run] using hbound⟩
  | cons action rest ih =>
    intro state bound hlimit hnonneg hdvd hbound
    obtain ⟨h1, h2, h3, h4⟩ := apply_pagination action state bound hlimit hnonneg hdvd hbound
    obtain ⟨g1, g2, g3, g4⟩ := ih (action.apply state) (bound + 50) h1 h2 h3 h4
    refine ⟨g1, g2, g3, ?_⟩
    have hrun : run (action :: rest) state = run rest (action.apply state) := rfl
    rw [hrun]
    simp only [List.length_cons, Nat.cast_add, Nat.cast_one]
    omega

/-- C11: in every state reached from the initial state by a finite sequence of
the store's state changes (`setFilter`, `clearFilters`, `setCurrentTrajectory`,
`nextPage`, `prevPage`, and the start or the completion, successful or failed,
of any fetch), `pagination.limit` is 50 and `pagination.skip` is a non-negative
multiple of the limit; it is at most 50 times the number of changes made. -/
theorem reachable_pagination_invariant {T D S : Type} (actions : List (Action T D S)) :
    (run actions (initialStore : Store T D S)).pagination.limit = 50
      ∧ 0 ≤ (run actions (initialStore : Store T D S)).pagination.skip
      ∧ (run actions (initialStore : Store T D S)).pagination.limit
          ∣ (run actions (initialStore : Store T D S)).pagination.skip
      ∧ (run actions (initialStore : Store T D S)).pagination.skip ≤ 50 * actions.length := by
  obtain ⟨h1, h2, h3, h4⟩ := run_pagination actions (initialStore : Store T D S) 0 rfl
    (le_refl _) (dvd_zero _) (le_refl _)
  refine ⟨h1, h2, ?_, by simpa using h4⟩
  rw [h1]
  exact h3

/-! ## Properties of the step label -/

theorem getElem?_mapBubbles (messages : List Message) :
    ∀ (start position : Nat), (mapBubbles start messages)[position]?
      = messages[position]?.map fun message => MessageBubble message (start + position) := by
  induction messages with
  | nil => intro start position; simp [mapBubbles]
  | cons message rest ih =>
    intro start position
    cases position with
    | zero => simp [mapBubbles]
    | succ n =>
      simp only [mapBubbles, List.getElem?_cons_succ, ih]
      congr 1
      funext m
      congr 1
      omega

/-- A bubble that is not an agent bubble shows no step label. -/
theorem stepLabel?_of_not_agent (message : Message) (index : Nat)
    (hrole : message.role ≠ "agent") :
    Bubble.stepLabel? (MessageBubble message index) = none := by
  by_cases hhuman : message.role = "human"
  · rw [MessageBubble_human message index hhuman]
    split_ifs
    · cases taskText message.content with
      | none => rfl
      | some task => cases actionsText message.content <;> rfl
    · cases taskText message.content <;> rfl
    · rfl
  · have hAgent : (message.role == "agent") = false := by simpa using hrole
    have hHuman : (message.role == "human") = false := by simpa using hhuman
    unfold MessageBubble
    simp only [hAgent, hHuman, Bool.false_eq_true, if_false]
    rfl

/-- The step label of the bubble of a message: the caption of the agent bubble. -/
theorem stepLabel?_MessageBubble (message : Message) (index : Nat) :
    Bubble.stepLabel? (MessageBubble message index)
      = if message.role = "agent" then some (index / 2 + 1) else none := by
  by_cases hrole : message.role = "agent"
  · rw [MessageBubble_agent message index hrole, if_pos hrole]
    rfl
  · rw [stepLabel?_of_not_agent message index hrole, if_neg hrole]

theorem stepLabelAt_eq (currentTrajectory : TrajectoryDetail) (position : Nat) :
    stepLabelAt currentTrajectory position
      = match currentTrajectory.messages[position]? with
        | some message => if message.role = "agent" then some (position / 2 + 1) else none
        | none => none := by
  unfold stepLabelAt transcript
  rw [getElem?_mapBubbles]
  cases currentTrajectory.messages[position]? with
  | none => rfl
  | some message => simp [stepLabel?_MessageBubble]

theorem stepLabelAt_eq_some (currentTrajectory : TrajectoryDetail) (position label : Nat) :
    stepLabelAt currentTrajectory position = some label
      ↔ (∃ message, currentTrajectory.messages[position]? = some message
            ∧ message.role = "agent") ∧ label = position / 2 + 1 := by
  rw [stepLabelAt_eq]
  cases currentTrajectory.messages[position]? with
  | none => simp
  | some message =>
    by_cases hrole : message.role = "agent"
    · simp [hrole, eq_comm]
    · simp [hrole]

/-- C12, as stated, fails: in a transcript of an environment message followed by
an agent message, the message at position 0 is rendered as an environment bubble
and gets no step label; only the agent message at position 1 gets label 1. -/
theorem environment_message_has_no_stepLabel :
    stepLabelAt
        { id := "t1", task := none, status := "success", task_type := "put", steps := 1,
          environment := none,
          messages :=
            [{ role := "human", content := "You are in a room.", thought := none, action := none },
             { role := "agent", content := "go", thought := none, action := some "go" }] } 0
      = none
    ∧ stepLabelAt
        { id := "t1", task := none, status := "success", task_type := "put", steps := 1,
          environment := none,
          messages :=
            [{ role := "human", content := "You are in a room.", thought := none, action := none },
             { role := "agent", content := "go", thought := none, action := some "go" }] } 1
      = some 1
    ∧ MessageBubble
        { role := "human", content := "You are in a room.", thought := none, action := none } 0
      = some (.human { initial := false, body := .plain "You are in a room." }) := by
  decide

/-- C12, amended: an agent-role message at position `i` of the transcript gets
the step label `floor(i / 2) + 1`; hence agent-role messages at positions `2k`
and `2k + 1` both get `k + 1` (1 at positions 0 and 1, 2 at positions 2 and 3),
every label is at least 1 and labels do not decrease with the position.  A
label is shown for agent-role messages only: a message of another role gets
none. -/
theorem stepLabel_by_position (currentTrajectory : TrajectoryDetail) (i j k : Nat)
    (first second : Message)
    (hfirst : currentTrajectory.messages[i]? = some first) (hfirstRole : first.role = "agent")
    (hsecond : currentTrajectory.messages[j]? = some second)
    (hsecondRole : second.role = "agent") :
    stepLabelAt currentTrajectory i = some (i / 2 + 1)
      ∧ stepLabelAt currentTrajectory j = some (j / 2 + 1)
      ∧ (i = 2 * k → j = 2 * k + 1 →
          stepLabelAt currentTrajectory i = some (k + 1)
            ∧ stepLabelAt currentTrajectory j = some (k + 1))
      ∧ (i = 0 ∨ i = 1 → stepLabelAt currentTrajectory i = some 1)
      ∧ (i = 2 ∨ i = 3 → stepLabelAt currentTrajectory i = some 2)
      ∧ (i ≤ j → ∀ a b, stepLabelAt currentTrajectory i = some a →
          stepLabelAt currentTrajectory j = some b → a ≤ b)
      ∧ (∀ (p a : Nat), stepLabelAt currentTrajectory p = some a → a = p / 2 + 1 ∧ 1 ≤ a)
      ∧ (∀ (p q a b : Nat), p ≤ q → stepLabelAt currentTrajectory p = some a →
          stepLabelAt currentTrajectory q = some b → a ≤ b)
      ∧ (∀ (p label : Nat), stepLabelAt currentTrajectory p = some label
          ↔ (∃ message, currentTrajectory.messages[p]? = some message
                ∧ message.role = "agent") ∧ label = p / 2 + 1)
      ∧ (∀ (p : Nat) (message : Message), currentTrajectory.messages[p]? = some message →
          message.role ≠ "agent" → stepLabelAt currentTrajectory p = none)
      ∧ (∀ (message : Message) (index : Nat), message.role = "agent" →
          ∃ b, MessageBubble message index = some (.agent b)
            ∧ b.stepLabel = index / 2 + 1) := by
  have key : ∀ (p a : Nat), stepLabelAt currentTrajectory p = some a → a = p / 2 + 1 :=
    fun p a h => ((stepLabelAt_eq_some currentTrajectory p a).1 h).2
  have hi : stepLabelAt currentTrajectory i = some (i / 2 + 1) :=
    (stepLabelAt_eq_some currentTrajectory i _).2 ⟨⟨first, hfirst, hfirstRole⟩, rfl⟩
  have hj : stepLabelAt currentTrajectory j = some (j / 2 + 1) :=
    (stepLabelAt_eq_some currentTrajectory j _).2 ⟨⟨second, hsecond, hsecondRole⟩, rfl⟩
  have mono : ∀ (p q a b : Nat), p ≤ q → stepLabelAt currentTrajectory p = some a →
      stepLabelAt currentTrajectory q = some b → a ≤ b := by
    intro p q a b hpq ha hb
    have h1 := key _ _ ha
    have h2 := key _ _ hb
    have := Nat.div_le_div_right (c := 2) hpq
    omega
  refine ⟨hi, hj, ?_, ?_, ?_, fun hij a b => mono i j a b hij, ?_, mono,
    stepLabelAt_eq_some currentTrajectory, ?_, ?_⟩
  · intro h1 h2
    rw [hi, hj]
    constructor <;> congr 1 <;> omega
  · intro h
    rw [hi]
    congr 1
    omega
  · intro h
    rw [hi]
    congr 1
    omega
  · intro p a h
    have := key p a h
    omega
  · intro p message hp hrole
    rw [stepLabelAt_eq, hp]
    simp [hrole]
  · intro message index hrole
    exact ⟨_, MessageBubble_agent message index hrole, rfl⟩

/-- Witness of C12: two agent messages at positions 0 and 1 both get step
label 1. -/
theorem stepLabel_by_position_witness :
    stepLabelAt
        { id := "t2", task := none, status := "success", task_type := "put", steps := 1,
          environment := none,
          messages :=
            [{ role := "agent", content := "look", thought := some "where", action := none },
             { role := "agent", content := "go", thought := none, action := some "go" }] } 0
      = some 1
    ∧ stepLabelAt
        { id := "t2", task := none, status := "success", task_type := "put", steps := 1,
          environment := none,
          messages :=
            [{ role := "agent", content := "look", thought := some "where", action := none },
             { role := "agent", content := "go", thought := none, action := some "go" }] } 1
      = some 1 :=
  (stepLabel_by_position _ 0 1 0
    { role := "agent", content := "look", thought := some "where", action := none }
    { role := "agent", content := "go", thought := none, action := some "go" }
    (by decide) rfl (by decide) rfl).2.2.1 rfl rfl

end TrajectoryTracer
